import Mathlib

/-!
Verification of the value-extraction and parent-resolution logic of
`bibt-gcp-scc` (files `scc.py` and `classes.py`), shallowly embedded in Lean.

The embedding models Python records (protobuf-style objects and plain dicts)
as a `Val` tree, Python exceptions as an explicit `PyErr` error type threaded
through `Except`, and the `inflection` library's `underscore` / `camelize`
helpers as character-list transformations equivalent to their regexes.
-/

namespace BibtGcpScc

/-- Python exception kinds that the modelled code can raise. -/
inductive PyErr where
  | keyError
  | indexError
  | typeError
  | attributeError
  | valueError
  | unboundLocalError
deriving DecidableEq, Repr

/-- A Python value as seen by `get_value` / `_get`:
`vnull` is Python `None`; `vobj attrs keys` is an object whose attribute-style
fields are `attrs` and which, when `keys = some km`, additionally supports
dict-style `.get` lookups over `km` (a plain dict is `vobj [] (some km)`). -/
inductive Val where
  | vnull : Val
  | vbool : Bool → Val
  | vint : Int → Val
  | vstr : String → Val
  | vlist : List Val → Val
  | vobj : List (String × Val) → Option (List (String × Val)) → Val

/-- Model of `getattr(obj, name)`: succeeds only for attribute-style fields of an
object; `none` models `AttributeError`. -/
def pyGetattr (obj : Val) (name : String) : Option Val :=
  match obj with
  | .vobj attrs _ => attrs.lookup name
  | _ => none

/-- Model of `obj.get(name)`: defined only when the object has a `get` method
(a mapping); a missing key yields Python `None` (dict `.get` default).
`none` models `AttributeError` (no `get` method). -/
def pyGetKey (obj : Val) (name : String) : Option Val :=
  match obj with
  | .vobj _ (some km) => some ((km.lookup name).getD .vnull)
  | _ => none

/-- Model of `obj[0]` (used by the take-first marker): first element of a list, the
first character of a string; `IndexError` when empty, `KeyError` for a
string-keyed dict, `TypeError` otherwise (e.g. `None[0]`). -/
def pySubscript0 : Val → Except PyErr Val
  | .vlist [] => .error .indexError
  | .vlist (x :: _) => .ok x
  | .vstr s =>
    match s.data with
    | [] => .error .indexError
    | c :: _ => .ok (.vstr (String.mk [c]))
  | .vobj _ (some _) => .error .keyError
  | _ => .error .typeError

/-- Model of `for _obj in obj`: lists iterate over elements, strings over one-character
strings, dicts over their keys; anything else raises `TypeError`. -/
def pyIter : Val → Except PyErr (List Val)
  | .vlist xs => .ok xs
  | .vstr s => .ok (s.data.map (fun c => .vstr (String.mk [c])))
  | .vobj _ (some km) => .ok (km.map (fun kv => .vstr kv.1))
  | _ => .error .typeError

/-- First pass of `inflection.underscore`:
`re.sub(r"([A-Z]+)([A-Z][a-z])", r"\1_\2", word)`, i.e. an underscore is
inserted between two adjacent uppercase letters when the second is followed
by a lowercase letter. -/
def usPass1 : List Char → List Char
  | a :: b :: c :: rest =>
    if a.isUpper && b.isUpper && c.isLower then a :: '_' :: usPass1 (b :: c :: rest)
    else a :: usPass1 (b :: c :: rest)
  | l => l

/-- Second pass of `inflection.underscore`:
`re.sub(r"([a-z\d])([A-Z])", r"\1_\2", word)`. -/
def usPass2 : List Char → List Char
  | a :: b :: rest =>
    if (a.isLower || a.isDigit) && b.isUpper then a :: '_' :: usPass2 (b :: rest)
    else a :: usPass2 (b :: rest)
  | l => l

/-- Embedding of `inflection.underscore`: the two regex passes, then `-` → `_`, then
lowercase. -/
def underscore (s : String) : String :=
  String.mk (((usPass2 (usPass1 s.data)).map
    (fun c => if c = '-' then '_' else c)).map Char.toLower)

/-- Body of `re.sub(r"(?:^|_)(.)", lambda m: m.group(1).upper(), string)`
after the leading `^` match has been consumed: each `_c` pair becomes
`C`; a trailing lone underscore is left as is. -/
def camPass : List Char → List Char
  | '_' :: c :: rest => c.toUpper :: camPass rest
  | c :: rest => c :: camPass rest
  | [] => []

/-- Embedding of `inflection.camelize(s, True)`: uppercase the first character (the `^`
branch of the regex) and apply `camPass` to the rest. -/
def camelizeUpper (s : String) : String :=
  match s.data with
  | [] => ""
  | c :: rest => String.mk (c.toUpper :: camPass rest)

/-- Embedding of `inflection.camelize(s, uppercase_first_letter)`. For the lowercase
variant the source evaluates `string[0].lower() + camelize(string)[1:]`,
which raises `IndexError` on the empty string — modelled as `none`. -/
def camelize (s : String) (uppercaseFirstLetter : Bool) : Option String :=
  if uppercaseFirstLetter then some (camelizeUpper s)
  else
    match s.data with
    | [] => none
    | c :: _ => some (String.mk (c.toLower :: (camelizeUpper s).data.tail))

/-- Embedding of `scc._get(obj, attr)`: tries, in order, `getattr` with the exact name,
with the underscored name, with the camelized (first letter lowercase) name,
then `obj.get(attr)`; raises `KeyError` when the final `.get` raises
`KeyError`/`AttributeError`. A failed camelize (empty name) raises
`IndexError`, uncaught by the source's `except AttributeError` handlers. -/
def _get (obj : Val) (attr : String) : Except PyErr Val :=
  match pyGetattr obj attr with
  | some v => .ok v
  | none =>
    match pyGetattr obj (underscore attr) with
    | some v => .ok v
    | none =>
      match camelize attr false with
      | none => .error .indexError
      | some cam =>
        match pyGetattr obj cam with
        | some v => .ok v
        | none =>
          match pyGetKey obj attr with
          | some r => .ok r
          | none => .error .keyError

/-- Embedding of `path.partition(".")` restricted to the two components `get_value`
uses: the text before the first `.` and the text after it (empty when
there is no dot). -/
def partitionDot : List Char → List Char × List Char
  | [] => ([], [])
  | c :: cs =>
    if c = '.' then ([], cs)
    else
      let p := partitionDot cs
      (c :: p.1, p.2)

/-- The marker-stripping block of `get_value`: returns the segment with its
array marker removed together with the `grab_one` and `grab_all` flags.
Note the `[0]` branch of the source slices `attr[:-2]`, removing only two
characters and leaving the `[` in place — preserved here verbatim. -/
def splitMarker (attr : List Char) : List Char × Bool × Bool :=
  match attr.reverse with
  | ']' :: '[' :: r => (r.reverse, true, false)
  | ']' :: '0' :: '[' :: r => (('[' :: r).reverse, true, false)
  | ']' :: '*' :: '[' :: r => (r.reverse, false, true)
  | _ => (attr, false, false)

theorem partitionDot_snd_length_le (l : List Char) :
    (partitionDot l).2.length ≤ l.length := by
  induction l with
  | nil => simp [partitionDot]
  | cons c cs ih =>
    by_cases h : c = '.'
    · simp [partitionDot, h]
    · simp only [partitionDot, h, if_neg, ite_false]
      exact Nat.le_succ_of_le ih

theorem partitionDot_cons_snd_length_le (c : Char) (cs : List Char) :
    (partitionDot (c :: cs)).2.length ≤ cs.length := by
  by_cases h : c = '.'
  · simp [partitionDot, h]
  · simp only [partitionDot, h, if_neg, ite_false]
    exact partitionDot_snd_length_le cs

mutual

/-- Embedding of `scc.get_value(obj, path)` over the path's character list: empty path
returns the object; otherwise split at the first dot, strip the array
marker, fetch through `_get`, then take the first element (`grab_one`),
fan out over all elements (`grab_all`, via `getValueFan`), or recurse. -/
def getValueAux (obj : Val) (path : List Char) : Except PyErr Val :=
  match path with
  | [] => .ok obj
  | c :: cs =>
    let pr := partitionDot (c :: cs)
    let sm := splitMarker pr.1
    (_get obj (String.mk sm.1)).bind (fun v =>
      if sm.2.1 then
        (pySubscript0 v).bind (fun v0 => getValueAux v0 pr.2)
      else if sm.2.2 then
        (pyIter v).bind (fun items => (getValueFan items pr.2).map Val.vlist)
      else getValueAux v pr.2)
termination_by (path.length, 0)
decreasing_by
  all_goals simp_wf
  all_goals exact Prod.Lex.left _ _ (Nat.lt_succ_of_le (partitionDot_cons_snd_length_le _ _))

/-- The fan-out list comprehension
`[get_value(_obj, remaining) for _obj in obj]`: left-to-right, the first
exception aborts the whole comprehension. -/
def getValueFan (objs : List Val) (path : List Char) : Except PyErr (List Val) :=
  match objs with
  | [] => .ok []
  | o :: os =>
    (getValueAux o path).bind (fun v =>
      (getValueFan os path).map (fun vs => v :: vs))
termination_by (path.length, objs.length + 1)
decreasing_by
  all_goals simp_wf
  all_goals first
    | exact Prod.Lex.right _ (Nat.succ_pos _)
    | exact Prod.Lex.right _ (Nat.lt_succ_self _)

end

/-- Embedding of `scc.get_value` on a string path. -/
def get_value (obj : Val) (path : String) : Except PyErr Val :=
  getValueAux obj path.data

/-! ## `classes.py`: `FindingParentInfo` -/

/-- The `security_center_properties` sub-object of an SCC asset, with the
fields `FindingParentInfo` reads. -/
structure SecurityCenterProperties where
  resource_type : String
  resource_parent : String
  resource_display_name : String
  resource_name : String
  resource_owners : List String

/-- One IAM binding of the parsed `iam_policy.policy_blob`. -/
structure IamBinding where
  role : String
  members : List String

/-- An SCC asset as consumed by `FindingParentInfo`: `resource_properties`
is a string-keyed dict, `iam_policy_bindings` is the result of
`json.loads(asset.iam_policy.policy_blob).get("bindings", None)`
(`none` models JSON without a `bindings` key). -/
structure Asset where
  security_center_properties : SecurityCenterProperties
  resource_properties : List (String × String)
  iam_policy_bindings : Option (List IamBinding)

/-- The resource types that stop the parent walk in
`FindingParentInfo._get_parent_info`. -/
def isTerminalType (t : String) : Bool :=
  t == "google.cloud.resourcemanager.Project"
    || t == "google.cloud.resourcemanager.Folder"
    || t == "google.cloud.resourcemanager.Organization"

/-- The `while` loop of `FindingParentInfo._get_parent_info`, fetching
parents through the injected `get_asset` environment (`env r = none` models
`get_asset` raising `ValueError` for an unknown resource). The source loop
has no iteration cap, so it is indexed by fuel here: a result of `none`
means the loop has not terminated within `fuel` fetches. -/
def walkF (env : String → Option Asset) : Nat → String → Option (Except PyErr Asset)
  | 0, _ => none
  | fuel + 1, r =>
    match env r with
    | none => some (.error .valueError)
    | some a =>
      if isTerminalType a.security_center_properties.resource_type then some (.ok a)
      else walkF env fuel a.security_center_properties.resource_parent

/-- Embedding of `FindingParentInfo._extract_parent_info_project`:
`(asset.resource_properties.get("projectNumber"),
  list(asset.security_center_properties.resource_owners))`. -/
def _extract_parent_info_project (a : Asset) : Option String × List String :=
  (a.resource_properties.lookup "projectNumber",
   a.security_center_properties.resource_owners)

/-- Embedding of `FindingParentInfo._extract_parent_info_org`:
`(asset.resource_properties.get("organizationId"), [])`. -/
def _extract_parent_info_org (a : Asset) : Option String × List String :=
  (a.resource_properties.lookup "organizationId", [])

/-- The `id_num` computation of `_extract_parent_info_folder`: the
`folderId` property if present, else segment 1 of
`resource_properties.get("name").split("/")` — where a missing `name`
returns Python `None` and `None.split` raises `AttributeError`, and a
one-segment name raises `IndexError`. -/
def folderIdNum (a : Asset) : Except PyErr (Option String) :=
  if (a.resource_properties.lookup "folderId").isSome then
    .ok (a.resource_properties.lookup "folderId")
  else
    match a.resource_properties.lookup "name" with
    | none => .error .attributeError
    | some nm =>
      match (nm.splitOn "/").get? 1 with
      | none => .error .indexError
      | some seg => .ok (some seg)

/-- Embedding of `FindingParentInfo._extract_parent_info_folder`. After computing
`id_num`, every control path reads the local variable `owners` before any
assignment to it (`owners.extend(...)` inside the binding loop,
`owners = list(set(owners))` after it, and the final `return (id_num,
owners)`), so the method always raises `UnboundLocalError`: -/
def _extract_parent_info_folder (a : Asset) : Except PyErr (Option String × List String) :=
  match folderIdNum a with
  | .error e => .error e
  | .ok _ =>
    match a.iam_policy_bindings with
    | some (_ :: _) => .error .unboundLocalError
    | _ => .error .unboundLocalError

/-- The tuple returned by `FindingParentInfo._get_parent_info` (the fields
assigned to `displayName`/`type`/`resourceName`/`idNum`/`owners`). -/
structure ParentTuple where
  displayName : String
  type : String
  resourceName : String
  idNum : Option String
  owners : List String
deriving DecidableEq, Repr

/-- Embedding of `FindingParentInfo._get_parent_info(resource, ...)`: run the parent
walk, then branch on the terminal resource type and package the metadata;
`none` again means the (uncapped) source loop has not finished within
`fuel` fetches. -/
def _get_parent_info (env : String → Option Asset) (fuel : Nat) (resource : String) :
    Option (Except PyErr ParentTuple) :=
  match walkF env fuel resource with
  | none => none
  | some (.error e) => some (.error e)
  | some (.ok a) =>
    let scp := a.security_center_properties
    if scp.resource_type = "google.cloud.resourcemanager.Project" then
      let pr := _extract_parent_info_project a
      some (.ok ⟨scp.resource_display_name, scp.resource_type, scp.resource_name, pr.1, pr.2⟩)
    else if scp.resource_type = "google.cloud.resourcemanager.Folder" then
      match _extract_parent_info_folder a with
      | .error e => some (.error e)
      | .ok pr =>
        some (.ok ⟨scp.resource_display_name, scp.resource_type, scp.resource_name, pr.1, pr.2⟩)
    else
      let pr := _extract_parent_info_org a
      some (.ok ⟨scp.resource_display_name, scp.resource_type, scp.resource_name, pr.1, pr.2⟩)

/-! ## Concrete fixtures used by the counterexamples and witnesses -/

/-- A dict record `{"a": [{"b": 1}]}`. -/
def c1Obj : Val := .vobj [] (some [("a", .vlist [.vobj [] (some [("b", .vint 1)])])])

/-- A compute-instance asset whose parent is the resource named `p`. -/
def instAsset (p : String) : Asset :=
  { security_center_properties :=
      { resource_type := "google.compute.Instance"
        resource_parent := p
        resource_display_name := "inst"
        resource_name := "//compute.googleapis.com/i"
        resource_owners := [] }
    resource_properties := []
    iam_policy_bindings := none }

/-- A project asset with a `projectNumber` property and recorded owners. -/
def projAsset : Asset :=
  { security_center_properties :=
      { resource_type := "google.cloud.resourcemanager.Project"
        resource_parent := "//cloudresourcemanager.googleapis.com/organizations/1"
        resource_display_name := "my-project"
        resource_name := "//cloudresourcemanager.googleapis.com/projects/42"
        resource_owners := ["user:dana"] }
    resource_properties := [("projectNumber", "42")]
    iam_policy_bindings := none }

/-- A folder asset carrying the two bindings of the claim:
`folderAdmin -> [alice, bob]` and `owner -> [bob, carol]`. -/
def folderAsset : Asset :=
  { security_center_properties :=
      { resource_type := "google.cloud.resourcemanager.Folder"
        resource_parent := "//cloudresourcemanager.googleapis.com/organizations/1"
        resource_display_name := "my-folder"
        resource_name := "//cloudresourcemanager.googleapis.com/folders/77"
        resource_owners := [] }
    resource_properties := [("folderId", "77")]
    iam_policy_bindings := some
      [{ role := "roles/resourcemanager.folderAdmin", members := ["alice", "bob"] },
       { role := "roles/owner", members := ["bob", "carol"] }] }

/-- The same folder asset with no policy bindings at all. -/
def folderAssetNoBind : Asset :=
  { folderAsset with iam_policy_bindings := none }

/-- Environment: instance `i` under project `p`. -/
def envProj : String → Option Asset := fun r =>
  if r = "i" then some (instAsset "p")
  else if r = "p" then some projAsset
  else none

/-- Environment: instance `i` under the folder with bindings. -/
def envFolder : String → Option Asset := fun r =>
  if r = "i" then some (instAsset "f")
  else if r = "f" then some folderAsset
  else none

/-- Environment: instance `i` under the folder without bindings. -/
def envFolderNoBind : String → Option Asset := fun r =>
  if r = "i" then some (instAsset "f")
  else if r = "f" then some folderAssetNoBind
  else none

/-- A cyclic hierarchy: two non-terminal assets naming each other as
parent. -/
def envCycle : String → Option Asset := fun r =>
  if r = "x" then some (instAsset "y")
  else if r = "y" then some (instAsset "x")
  else none

/-! ## General lemmas about the embedding -/

theorem string_mk_data (s : String) : String.mk s.data = s := by cases s; rfl

theorem partitionDot_no_dot (l : List Char) (h : ('.' : Char) ∉ l) :
    partitionDot l = (l, []) := by
  induction l with
  | nil => rfl
  | cons c cs ih =>
    have hc : ¬ (c = '.') := fun hc => h (hc ▸ List.mem_cons_self c cs)
    simp [partitionDot, hc, ih (fun hm => h (List.mem_cons_of_mem _ hm))]

theorem partitionDot_append (l₁ l₂ : List Char) (h : ('.' : Char) ∉ l₁) :
    partitionDot (l₁ ++ '.' :: l₂) = (l₁, l₂) := by
  induction l₁ with
  | nil => simp [partitionDot]
  | cons c cs ih =>
    have hc : ¬ (c = '.') := fun hc => h (hc ▸ List.mem_cons_self c cs)
    simp [partitionDot, hc, ih (fun hm => h (List.mem_cons_of_mem _ hm))]

theorem splitMarker_take_first (n : List Char) :
    splitMarker (n ++ ['[', ']']) = (n, true, false) := by
  simp [splitMarker, List.reverse_append]

theorem splitMarker_fan_out (n : List Char) :
    splitMarker (n ++ ['[', '*', ']']) = (n, false, true) := by
  simp [splitMarker, List.reverse_append]

theorem getValueAux_nil (obj : Val) : getValueAux obj [] = .ok obj := by
  conv_lhs => rw [getValueAux]

theorem getValueAux_cons (obj : Val) (c : Char) (cs : List Char) :
    getValueAux obj (c :: cs) =
      (_get obj (String.mk (splitMarker (partitionDot (c :: cs)).1).1)).bind (fun v =>
        if (splitMarker (partitionDot (c :: cs)).1).2.1 then
          (pySubscript0 v).bind (fun v0 => getValueAux v0 (partitionDot (c :: cs)).2)
        else if (splitMarker (partitionDot (c :: cs)).1).2.2 then
          (pyIter v).bind (fun items =>
            (getValueFan items (partitionDot (c :: cs)).2).map Val.vlist)
        else getValueAux v (partitionDot (c :: cs)).2) := by
  conv_lhs => rw [getValueAux]

theorem getValueAux_ne_nil (obj : Val) (p : List Char) (hp : p ≠ []) :
    getValueAux obj p =
      (_get obj (String.mk (splitMarker (partitionDot p).1).1)).bind (fun v =>
        if (splitMarker (partitionDot p).1).2.1 then
          (pySubscript0 v).bind (fun v0 => getValueAux v0 (partitionDot p).2)
        else if (splitMarker (partitionDot p).1).2.2 then
          (pyIter v).bind (fun items =>
            (getValueFan items (partitionDot p).2).map Val.vlist)
        else getValueAux v (partitionDot p).2) := by
  cases p with
  | nil => exact absurd rfl hp
  | cons c cs => exact getValueAux_cons obj c cs

theorem getValueFan_nil (p : List Char) : getValueFan [] p = .ok [] := by
  conv_lhs => rw [getValueFan]

theorem getValueFan_cons (o : Val) (os : List Val) (p : List Char) :
    getValueFan (o :: os) p =
      (getValueAux o p).bind (fun v => (getValueFan os p).map (fun vs => v :: vs)) := by
  conv_lhs => rw [getValueFan]

theorem getValueFan_nil_path (xs : List Val) : getValueFan xs [] = .ok xs := by
  induction xs with
  | nil => exact getValueFan_nil []
  | cons o os ih => rw [getValueFan_cons, getValueAux_nil, ih]; rfl

theorem getValueFan_ok (xs : List Val) (p : List Char) (vs : List Val)
    (h : getValueFan xs p = .ok vs) :
    vs.length = xs.length
    ∧ ∀ i (hx : i < xs.length) (hv : i < vs.length),
        getValueAux (xs.get ⟨i, hx⟩) p = .ok (vs.get ⟨i, hv⟩) := by
  induction xs generalizing vs with
  | nil =>
    rw [getValueFan_nil] at h
    cases h
    exact ⟨rfl, fun i hx _ => absurd hx (Nat.not_lt_zero i)⟩
  | cons o os ih =>
    rw [getValueFan_cons] at h
    cases hA : getValueAux o p with
    | error e => rw [hA] at h; exact absurd h (by simp [Except.bind])
    | ok v =>
      rw [hA] at h
      cases hF : getValueFan os p with
      | error e => rw [hF] at h; exact absurd h (by simp [Except.bind, Except.map])
      | ok ws =>
        rw [hF] at h
        simp only [Except.bind, Except.map] at h
        cases h
        obtain ⟨hlen, hidx⟩ := ih ws hF
        refine ⟨by simp [hlen], ?_⟩
        intro i hx hv
        cases i with
        | zero => simpa using hA
        | succ j =>
          exact hidx j (Nat.lt_of_succ_lt_succ hx) (Nat.lt_of_succ_lt_succ hv)



/-- C6: for every record `r`, `get_value(r, "")` returns `r` unchanged. -/
theorem empty_path_identity (obj : Val) : get_value obj "" = .ok obj := by
  unfold get_value
  exact getValueAux_nil obj

/-- C1: on the dict `{"a": [{"b": 1}]}`, `get_value(r, "a[0].b")` raises
`TypeError` (the `[0]` branch slices `attr[:-2]`, leaving segment `"a["`,
whose dict `.get` fallback yields `None`, and `None[0]` is a `TypeError`),
while `get_value(r, "a[].b")` returns `1` — so `[0]` and `[]` are not
interchangeable, contradicting the claim (and the source's docstring). -/
theorem bracket_zero_not_take_first :
    get_value c1Obj "a[0].b" = .error .typeError
    ∧ get_value c1Obj "a[].b" = .ok (.vint 1)
    ∧ get_value (Val.vobj [] (some [("b", Val.vint 1)])) "b" = .ok (.vint 1) := by
  refine ⟨?_, ?_, ?_⟩ <;>
    simp [get_value, getValueAux, getValueFan, c1Obj, partitionDot, splitMarker, _get,
      pyGetattr, pyGetKey, pySubscript0, pyIter, underscore, camelize, camelizeUpper,
      camPass, usPass1, usPass2, List.lookup, Except.bind, Except.map]

/-- C3: on a plain dict `{"x": 1}` and the absent field `"y"`, `_get`
returns Python `None` through the dict's `.get` default instead of raising
`KeyError`, contradicting the claim (and `_get`'s own docstring). -/
theorem mapping_missing_field_yields_none :
    _get (Val.vobj [] (some [("x", Val.vint 1)])) "y" = .ok Val.vnull := rfl



/-- C7: if the field named by a take-first (`[]`) segment resolves to an
empty sequence, `get_value` raises `IndexError` (from `value[0]`) and the
error propagates to the caller, with or without a remaining path. -/
theorem take_first_empty_propagates (obj : Val) (name rest : String)
    (hdot : ('.' : Char) ∉ name.data)
    (hget : _get obj name = .ok (.vlist [])) :
    get_value obj (name ++ "[]." ++ rest) = .error .indexError
    ∧ get_value obj (name ++ "[]") = .error .indexError := by
  constructor
  · have hdata : (name ++ "[]." ++ rest).data
        = (name.data ++ ['[', ']']) ++ '.' :: rest.data := by
      show (name.data ++ ['[', ']', '.']) ++ rest.data = _
      simp
    have hnn : (name.data ++ ['[', ']']) ++ '.' :: rest.data ≠ [] := by simp
    unfold get_value
    rw [hdata, getValueAux_ne_nil _ _ hnn,
      partitionDot_append _ _ (by simp [hdot]), splitMarker_take_first]
    simp only [string_mk_data, hget]
    rfl
  · have hdata : (name ++ "[]").data = name.data ++ ['[', ']'] := by
      show name.data ++ ['[', ']'] = _
      simp
    have hnn : name.data ++ ['[', ']'] ≠ [] := by simp
    unfold get_value
    rw [hdata, getValueAux_ne_nil _ _ hnn,
      partitionDot_no_dot _ (by simp [hdot]), splitMarker_take_first]
    simp only [string_mk_data, hget]
    rfl

/-- C7 witness: on the dict `{"a": []}`, both `a[].b` and `a[]` raise
`IndexError`. -/
theorem take_first_empty_propagates_witness :
    get_value (Val.vobj [] (some [("a", Val.vlist [])])) "a[].b" = .error .indexError
    ∧ get_value (Val.vobj [] (some [("a", Val.vlist [])])) "a[]" = .error .indexError :=
  take_first_empty_propagates (Val.vobj [] (some [("a", Val.vlist [])])) "a" "b"
    (by decide) rfl



/-- C4: a fan-out segment `a[*]` with remainder returns one result per
element of the fetched sequence, the i-th being the resolution of the
remainder against the i-th element; with an empty remainder it returns the
sequence itself element for element. -/
theorem fan_out_pointwise (obj : Val) (name rest : String) (xs vs : List Val)
    (hdot : ('.' : Char) ∉ name.data)
    (hget : _get obj name = .ok (.vlist xs))
    (hrun : get_value obj (name ++ "[*]." ++ rest) = .ok (.vlist vs)) :
    vs.length = xs.length
    ∧ (∀ i (hx : i < xs.length) (hv : i < vs.length),
        get_value (xs.get ⟨i, hx⟩) rest = .ok (vs.get ⟨i, hv⟩))
    ∧ get_value obj (name ++ "[*]") = .ok (.vlist xs) := by
  have hdata : (name ++ "[*]." ++ rest).data
      = (name.data ++ ['[', '*', ']']) ++ '.' :: rest.data := by
    show (name.data ++ ['[', '*', ']', '.']) ++ rest.data = _
    simp
  have hnn : (name.data ++ ['[', '*', ']']) ++ '.' :: rest.data ≠ [] := by simp
  unfold get_value at hrun
  rw [hdata, getValueAux_ne_nil _ _ hnn,
    partitionDot_append _ _ (by simp [hdot]), splitMarker_fan_out,
    string_mk_data, hget] at hrun
  have hrun' : (getValueFan xs rest.data).map Val.vlist = .ok (.vlist vs) := hrun
  have hfan : getValueFan xs rest.data = .ok vs := by
    cases hF : getValueFan xs rest.data with
    | error e => rw [hF] at hrun'; exact absurd hrun' (by simp [Except.map])
    | ok ws =>
      rw [hF] at hrun'
      simp only [Except.map] at hrun'
      cases hrun'
      rfl
  obtain ⟨hlen, hidx⟩ := getValueFan_ok xs rest.data vs hfan
  refine ⟨hlen, fun i hx hv => hidx i hx hv, ?_⟩
  have hdata2 : (name ++ "[*]").data = name.data ++ ['[', '*', ']'] := by
    show name.data ++ ['[', '*', ']'] = _
    simp
  have hnn2 : name.data ++ ['[', '*', ']'] ≠ [] := by simp
  unfold get_value
  rw [hdata2, getValueAux_ne_nil _ _ hnn2,
    partitionDot_no_dot _ (by simp [hdot]), splitMarker_fan_out,
    string_mk_data, hget]
  show (getValueFan xs []).map Val.vlist = .ok (.vlist xs)
  rw [getValueFan_nil_path]
  rfl

/-- C4 witness: on the dict `{"a": [{"b": 1}, {"b": 2}]}`, `a[*].b` yields
`[1, 2]` of the same length and `a[*]` returns the two elements verbatim. -/
theorem fan_out_pointwise_witness :
    ([Val.vint 1, Val.vint 2] : List Val).length
        = ([Val.vobj [] (some [("b", Val.vint 1)]),
            Val.vobj [] (some [("b", Val.vint 2)])] : List Val).length
    ∧ get_value (Val.vobj [] (some [("a",
        Val.vlist [Val.vobj [] (some [("b", Val.vint 1)]),
                   Val.vobj [] (some [("b", Val.vint 2)])])])) "a[*]"
      = .ok (.vlist [Val.vobj [] (some [("b", Val.vint 1)]),
                     Val.vobj [] (some [("b", Val.vint 2)])]) := by
  have h := fan_out_pointwise
    (Val.vobj [] (some [("a",
      Val.vlist [Val.vobj [] (some [("b", Val.vint 1)]),
                 Val.vobj [] (some [("b", Val.vint 2)])])]))
    "a" "b"
    [Val.vobj [] (some [("b", Val.vint 1)]), Val.vobj [] (some [("b", Val.vint 2)])]
    [Val.vint 1, Val.vint 2]
    (by decide) rfl
    (by simp [get_value, getValueAux, getValueFan, partitionDot, splitMarker, _get,
      pyGetattr, pyGetKey, pySubscript0, pyIter, underscore, camelize, camelizeUpper,
      camPass, usPass1, usPass2, List.lookup, Except.bind, Except.map])
  exact ⟨h.1, h.2.2⟩



/-- C5: `_get` tries, in order and stopping at the first success, exact
attribute access, snake_case attribute access, camelCase attribute access,
then key lookup under the original name — so a record exposing the field
under whichever of the four namings yields its value. -/
theorem attribute_fallback_chain (obj : Val) (n cam : String) (v : Val)
    (hcam : camelize n false = some cam) :
    (pyGetattr obj n = some v → _get obj n = .ok v)
    ∧ (pyGetattr obj n = none → pyGetattr obj (underscore n) = some v →
        _get obj n = .ok v)
    ∧ (pyGetattr obj n = none → pyGetattr obj (underscore n) = none →
        pyGetattr obj cam = some v → _get obj n = .ok v)
    ∧ (∀ attrs km, obj = Val.vobj attrs (some km) →
        pyGetattr obj n = none → pyGetattr obj (underscore n) = none →
        pyGetattr obj cam = none → km.lookup n = some v → _get obj n = .ok v) := by
  refine ⟨?_, ?_, ?_, ?_⟩
  · intro h1
    simp [_get, h1]
  · intro h1 h2
    simp [_get, h1, h2]
  · intro h1 h2 h3
    simp [_get, h1, h2, hcam, h3]
  · intro attrs km hobj h1 h2 h3 h4
    subst hobj
    simp [_get, h1, h2, hcam, h3, pyGetKey, h4]

/-- C5 witness: a protobuf-style record exposing only the snake_case
attribute `my_attr` resolves the camelCase query `myAttr` to its value. -/
theorem attribute_fallback_chain_witness :
    _get (Val.vobj [("my_attr", Val.vint 5)] none) "myAttr" = .ok (Val.vint 5) :=
  (attribute_fallback_chain (Val.vobj [("my_attr", Val.vint 5)] none)
    "myAttr" "myAttr" (Val.vint 5) rfl).2.1 rfl rfl

/-- C10: `_get` on a plain mapping returns the dict `.get` default `None`
for a field absent under the original name; `KeyError` arises only for
records without a `get` method; and this `None` surfaces silently through
the public `get_value` interface. -/
theorem mapping_get_default_semantics :
    (∀ (km : List (String × Val)) (n : String), n.data ≠ [] →
        km.lookup n = none → _get (Val.vobj [] (some km)) n = .ok Val.vnull)
    ∧ (∀ (attrs : List (String × Val)) (n cam : String), camelize n false = some cam →
        attrs.lookup n = none → attrs.lookup (underscore n) = none →
        attrs.lookup cam = none → _get (Val.vobj attrs none) n = .error .keyError)
    ∧ (∀ (km : List (String × Val)) (n : String), n.data ≠ [] →
        ('.' : Char) ∉ n.data → splitMarker n.data = (n.data, false, false) →
        km.lookup n = none → get_value (Val.vobj [] (some km)) n = .ok Val.vnull) := by
  have base : ∀ (km : List (String × Val)) (n : String), n.data ≠ [] →
      km.lookup n = none → _get (Val.vobj [] (some km)) n = .ok Val.vnull := by
    intro km n hne hl
    cases hd : n.data with
    | nil => exact absurd hd hne
    | cons c cs => simp [_get, pyGetattr, pyGetKey, camelize, hd, hl]
  refine ⟨base, ?_, ?_⟩
  · intro attrs n cam hcam h1 h2 h3
    simp [_get, pyGetattr, pyGetKey, hcam, h1, h2, h3]
  · intro km n hne hdot hmark hl
    unfold get_value
    rw [getValueAux_ne_nil _ _ hne, partitionDot_no_dot _ hdot, hmark]
    have step : (_get (Val.vobj [] (some km)) (String.mk n.data)).bind
        (fun v => getValueAux v []) = Except.ok Val.vnull := by
      rw [string_mk_data, base km n hne hl]
      exact getValueAux_nil Val.vnull
    exact step



/-- C10 witness: the mapping `{"k": "v"}` yields `None` for the absent
field `missing` (also through `get_value`), while an attribute-only record
raises `KeyError` for it. -/
theorem mapping_get_default_semantics_witness :
    _get (Val.vobj [] (some [("k", Val.vstr "v")])) "missing" = .ok Val.vnull
    ∧ _get (Val.vobj [("k", Val.vstr "v")] none) "missing" = .error .keyError
    ∧ get_value (Val.vobj [] (some [("k", Val.vstr "v")])) "missing" = .ok Val.vnull := by
  obtain ⟨p1, p2, p3⟩ := mapping_get_default_semantics
  exact ⟨p1 _ "missing" (by decide) rfl,
         p2 _ "missing" "missing" rfl rfl rfl rfl,
         p3 _ "missing" (by decide) (by decide) rfl rfl⟩

/-- C9: when the parent walk terminates at a Project asset, the returned
tuple has the Project resource type, the asset's `projectNumber` property
as identifier, and the asset's recorded `resource_owners` verbatim. -/
theorem parent_resolution_project (env : String → Option Asset) (fuel : Nat) (r : String)
    (a : Asset) (hwalk : walkF env fuel r = some (.ok a))
    (htype : a.security_center_properties.resource_type
      = "google.cloud.resourcemanager.Project") :
    _get_parent_info env fuel r = some (.ok
      { displayName := a.security_center_properties.resource_display_name
        type := "google.cloud.resourcemanager.Project"
        resourceName := a.security_center_properties.resource_name
        idNum := a.resource_properties.lookup "projectNumber"
        owners := a.security_center_properties.resource_owners }) := by
  unfold _get_parent_info
  rw [hwalk]
  simp [htype, _extract_parent_info_project]

/-- C9 witness: the chain `i -> p` ending at `projAsset` resolves to the
project's display name, number `42` and owners `[user:dana]`. -/
theorem parent_resolution_project_witness :
    _get_parent_info envProj 2 "i" = some (.ok
      { displayName := "my-project"
        type := "google.cloud.resourcemanager.Project"
        resourceName := "//cloudresourcemanager.googleapis.com/projects/42"
        idNum := some "42"
        owners := ["user:dana"] }) :=
  parent_resolution_project envProj 2 "i" projAsset rfl rfl

/-- C2: the walk ending at a Folder never produces an owners collection:
`_extract_parent_info_folder` reads the local `owners` before any
assignment, so the code raises `UnboundLocalError` both with the claim's
two bindings (`folderAdmin -> [alice, bob]`, `owner -> [bob, carol]`) and
with no bindings at all, instead of returning `{alice, bob, carol}`
respectively the empty collection. -/
theorem folder_owner_extraction_raises :
    _get_parent_info envFolder 2 "i" = some (.error .unboundLocalError)
    ∧ _get_parent_info envFolderNoBind 2 "i" = some (.error .unboundLocalError) :=
  ⟨rfl, rfl⟩

theorem walkF_cycle (n : Nat) :
    walkF envCycle n "x" = none ∧ walkF envCycle n "y" = none := by
  induction n with
  | zero => exact ⟨rfl, rfl⟩
  | succ n ih =>
    exact ⟨(show walkF envCycle (n + 1) "x" = walkF envCycle n "y" from rfl).trans ih.2,
           (show walkF envCycle (n + 1) "y" = walkF envCycle n "x" from rfl).trans ih.1⟩

/-- C8: the source walk has no depth cap and no `CycleDetectedError`: on a
cyclic hierarchy (`x` and `y` naming each other as parent) the loop never
terminates — no amount of fuel produces a result. -/
theorem hierarchy_walk_cycle_diverges (fuel : Nat) :
    _get_parent_info envCycle fuel "x" = none := by
  unfold _get_parent_info
  rw [(walkF_cycle fuel).1]

end BibtGcpScc
